import Mathlib

/-!
Shallow embedding of `src/track_canvas_qt.py` (class `TrackCanvas`).

Coordinates are modelled as rationals (`ℚ`), standing for Python floats with
exact arithmetic.  External library calls (cv2 contour extraction, shapely
polygon construction / buffering, Qt pixmap scaling, float parsing of text
entries) are modelled as abstract parameters: the functions of this file take
the results of those calls as inputs, exactly where the Python code consumes
them.  The widget's mutable attributes become the fields of `CanvasState`;
each method that mutates state becomes a function `CanvasState → …`, and the
calls a method makes into the parent controller are returned explicitly as a
list of `ParentCall` values.
-/

/-- A 2-D point (Python tuple / `QPointF` / numpy row), as a pair of rationals. -/
abbrev Pt := ℚ × ℚ

/-- The mutable attributes of `TrackCanvas` (`__init__`, lines 11-44).

`P` is the type of shapely polygon objects, kept abstract.  `sat_image`,
`sat_pixmap` and `binary_map` are modelled by their dimensions, the only data
the methods of this class read from them (`sat_image`/`sat_pixmap` as
`(width, height)`, `binary_map` by its numpy `shape`, i.e. `(rows, cols)`). -/
structure CanvasState (P : Type) where
  scale_x : ℚ
  scale_y : ℚ
  offset_x : ℚ
  offset_y : ℚ
  sat_image : ℕ × ℕ
  sat_pixmap : ℕ × ℕ
  binary_map : ℕ × ℕ
  obstacle_polygons : List (List Pt)
  free_region : Option P
  original_obstacle_polygons : List (List Pt)
  original_free_region : Option P
  control_points : List Pt
  centerline : Option (List Pt)
  left_boundary : Option (List Pt)
  right_boundary : Option (List Pt)
  boundaries_swapped : Bool

/-- `calculate_scaling_factors` (lines 46-55): `scale_x = sat_width / occ_width`,
`scale_y = sat_height / occ_height`, where `occ_height, occ_width = binary_map.shape`. -/
def calculate_scaling_factors {P : Type} (s : CanvasState P) : CanvasState P :=
  { s with
    scale_x := (s.sat_image.1 : ℚ) / (s.binary_map.2 : ℚ),
    scale_y := (s.sat_image.2 : ℚ) / (s.binary_map.1 : ℚ) }

/-- `transform_point` (lines 57-60): map coordinates to display coordinates. -/
def transform_point {P : Type} (s : CanvasState P) (map_x map_y : ℚ) : Pt :=
  (map_x * s.scale_x + s.offset_x, map_y * s.scale_y + s.offset_y)

/-- `inverse_transform_point` (lines 62-65): display coordinates to map coordinates. -/
def inverse_transform_point {P : Type} (s : CanvasState P) (display_x display_y : ℚ) : Pt :=
  ((display_x - s.offset_x) / s.scale_x, (display_y - s.offset_y) / s.scale_y)

/-- `transform_polygon` (lines 67-69): apply `transform_point` to every vertex. -/
def transform_polygon {P : Type} (s : CanvasState P) (polygon : List Pt) : List Pt :=
  polygon.map (fun p => transform_point s p.1 p.2)

/-- A concrete state used to instantiate universally quantified theorems. -/
def sampleState : CanvasState Unit :=
  { scale_x := 2, scale_y := 3, offset_x := 5, offset_y := 7,
    sat_image := (100, 50), sat_pixmap := (100, 50), binary_map := (25, 50),
    obstacle_polygons := [], free_region := none,
    original_obstacle_polygons := [], original_free_region := none,
    control_points := [], centerline := none,
    left_boundary := none, right_boundary := none, boundaries_swapped := false }

/-- C1: for every state with nonzero `scale_x` and `scale_y`,
`inverse_transform_point` undoes `transform_point` on any map point, and
`transform_point` undoes `inverse_transform_point` on any display point:
the two coordinate transforms are mutually inverse. -/
theorem transform_point_inverse_roundtrip (P : Type) (s : CanvasState P)
    (mx my dx dy : ℚ) (hx : s.scale_x ≠ 0) (hy : s.scale_y ≠ 0) :
    inverse_transform_point s (transform_point s mx my).1 (transform_point s mx my).2
        = (mx, my) ∧
    transform_point s (inverse_transform_point s dx dy).1 (inverse_transform_point s dx dy).2
        = (dx, dy) := by
  constructor
  · simp only [transform_point, inverse_transform_point, Prod.mk.injEq]
    constructor <;> field_simp
  · simp only [transform_point, inverse_transform_point, Prod.mk.injEq]
    constructor <;> field_simp

/-- Witness for C1: the round trips evaluated at a concrete state with
`scale_x = 2`, `scale_y = 3`, offsets `(5, 7)`. -/
theorem transform_point_inverse_roundtrip_witness :
    (sampleState.scale_x ≠ 0 ∧ sampleState.scale_y ≠ 0) ∧
    (inverse_transform_point sampleState
        (transform_point sampleState 1 2).1 (transform_point sampleState 1 2).2 = (1, 2) ∧
     transform_point sampleState
        (inverse_transform_point sampleState 4 9).1
        (inverse_transform_point sampleState 4 9).2 = (4, 9)) :=
  ⟨⟨by norm_num [sampleState], by norm_num [sampleState]⟩,
   transform_point_inverse_roundtrip Unit sampleState 1 2 4 9
     (by norm_num [sampleState]) (by norm_num [sampleState])⟩

/-- Result of `numpy.squeeze` on a cv2 contour of shape `(n, 1, 2)`:
a 1-D array (a single point) when `n = 1`, otherwise a 2-D array of points. -/
inductive Squeezed
  | oneD (p : Pt)
  | twoD (ps : List Pt)

/-- `cnt.squeeze()` for a contour `cnt` of shape `(n, 1, 2)`. -/
def squeeze (cnt : List Pt) : Squeezed :=
  match cnt with
  | [p] => Squeezed.oneD p
  | ps => Squeezed.twoD ps

/-- Python `max(xs, key=key)`: `none` on an empty list (Python raises), otherwise
the first element with maximal key. -/
def pythonMax {α : Type} (key : α → ℚ) : List α → Option α
  | [] => none
  | x :: xs => some (xs.foldl (fun best c => if key best < key c then c else best) x)

/-- Lines 94-95 of `extract_free_region`: if the first and last points differ,
append the first point at the end (`np.vstack([pts, pts[0]])`). -/
def closeContour : List Pt → List Pt
  | [] => []
  | h :: t => if (h :: t).getLast? = some h then h :: t else (h :: t) ++ [h]

/-- `extract_free_region` (lines 85-105).  `contours` is the result of
`cv2.findContours`; `area` models `cv2.contourArea`; `mkPolygon` models the
shapely `Polygon` constructor, with `none` standing for a raised exception
(the `except` branch returns `None`); `is_valid` and `is_empty` are the
shapely polygon predicates.  Returns the free-region polygon or `None`. -/
def extract_free_region {P α : Type} (s : CanvasState P) (area : List Pt → ℚ)
    (mkPolygon : List Pt → Option α) (is_valid is_empty : α → Bool)
    (contours : List (List Pt)) : Option α :=
  match pythonMax area contours with
  | none => none
  | some largest =>
    match squeeze largest with
    | Squeezed.oneD _ => none
    | Squeezed.twoD pts =>
      if pts.length < 3 then none
      else
        match mkPolygon ((closeContour pts).map (fun p => transform_point s p.1 p.2)) with
        | none => none
        | some poly =>
          if !is_valid poly || is_empty poly then none else some poly

/-- `update_drawing` (lines 107-114): assign the five drawing fields and call
`self.update()`.  The returned `Bool` records that a repaint was requested. -/
def update_drawing {P : Type} (s : CanvasState P) (control_points : List Pt)
    (centerline left_boundary right_boundary : Option (List Pt))
    (boundaries_swapped : Bool) : CanvasState P × Bool :=
  ({ s with
      control_points := control_points,
      centerline := centerline,
      left_boundary := left_boundary,
      right_boundary := right_boundary,
      boundaries_swapped := boundaries_swapped }, true)

/-- The state mutation performed by `paintEvent` (lines 127-129): overwrite the
scaling factors with the scaled pixmap's dimensions divided by
`binary_map.shape[1]` and `binary_map.shape[0]`.  `scaled_w, scaled_h` are the
dimensions of `sat_pixmap.scaled(width, height, Qt.KeepAspectRatio, ...)`,
an external Qt call. -/
def paintEvent_update_scaling {P : Type} (s : CanvasState P)
    (scaled_w scaled_h : ℕ) : CanvasState P :=
  { s with
    scale_x := (scaled_w : ℚ) / (s.binary_map.2 : ℚ),
    scale_y := (scaled_h : ℚ) / (s.binary_map.1 : ℚ) }

/-- The backoff-region part of `paintEvent` (lines 138-156).  `backoff_text` is
the result of `float(parent.backoff_entry.text())`, with `none` for a raised
`ValueError`; `buffer` models `shapely`'s `Polygon.buffer`; `is_empty` and
`exterior` are the shapely accessors (`exterior = none` models a `None`
exterior; the shapely truthiness test `if safe_region` is `not is_empty`).
Returns the region drawn, paired with its transformed exterior coordinates,
or `none` when nothing is drawn. -/
def paintEvent_backoff {P α : Type} (s : CanvasState P) (buffer : α → ℚ → α)
    (is_empty : α → Bool) (exterior : α → Option (List Pt))
    (free_region : Option α) (backoff_text : Option ℚ)
    (min_boundary_backoff px_per_m : ℚ) : Option (α × List Pt) :=
  let backoff_val := backoff_text.getD min_boundary_backoff
  let backoff_px := backoff_val * px_per_m
  match free_region with
  | none => none
  | some fr =>
    let safe_region := buffer fr (-backoff_px)
    if is_empty safe_region then none
    else
      match exterior safe_region with
      | none => none
      | some coords =>
        if 4 ≤ coords.length then
          some (safe_region, coords.map (fun p => transform_point s p.1 p.2))
        else none

/-- `cone_spacing` computation in `paintEvent` (lines 218-221): the parsed float,
falling back to `parent.default_cone_distance` on `ValueError`. -/
def coneSpacing (cone_spacing_text : Option ℚ) (default_cone_distance : ℚ) : ℚ :=
  cone_spacing_text.getD default_cone_distance

/-- The cone-drawing step of `paintEvent` for one boundary (lines 223-257):
when the boundary is truthy and has more than one point, sample cones via the
external `sample_cones` and draw them; otherwise nothing. -/
def paintEvent_cones (sample_cones : List Pt → ℚ → ℚ → List Pt)
    (boundary : Option (List Pt)) (cone_spacing px_per_m : ℚ) : Option (List Pt) :=
  match boundary with
  | none => none
  | some b => if 1 < b.length then some (sample_cones b cone_spacing px_per_m) else none

/-- A call the canvas makes into its parent controller. -/
inductive ParentCall
  | click (p : Pt)
  | drag (p : Pt)
  | release (p : Pt)
deriving DecidableEq

/-- `mousePressEvent` (lines 259-262): inverse-transform the cursor position and
hand it to `parent.handle_canvas_click`.  No state is modified. -/
def mousePressEvent {P : Type} (s : CanvasState P) (event_pos : Pt) :
    CanvasState P × List ParentCall :=
  (s, [ParentCall.click (inverse_transform_point s event_pos.1 event_pos.2)])

/-- `mouseMoveEvent` (lines 264-268): when `parent.dragging`, inverse-transform
the cursor position and hand it to `parent.handle_canvas_drag`. -/
def mouseMoveEvent {P : Type} (s : CanvasState P) (event_pos : Pt)
    (dragging : Bool) : CanvasState P × List ParentCall :=
  if dragging then
    (s, [ParentCall.drag (inverse_transform_point s event_pos.1 event_pos.2)])
  else (s, [])

/-- `mouseReleaseEvent` (lines 270-271): hand the raw `event.pos()` to
`parent.handle_canvas_release`, with no coordinate transform. -/
def mouseReleaseEvent {P : Type} (s : CanvasState P) (event_pos : Pt) :
    CanvasState P × List ParentCall :=
  (s, [ParentCall.release event_pos])

/-- The state-mutating operations of the canvas, for reachability arguments.
`paint` carries the scaled pixmap dimensions; `updateDrawing` carries the
arguments the parent passes; mouse operations carry the event data. -/
inductive CanvasOp
  | calcScaling
  | updateDrawing (control_points : List Pt) (centerline : Option (List Pt))
      (left_boundary : Option (List Pt)) (right_boundary : Option (List Pt))
      (boundaries_swapped : Bool)
  | paint (scaled_w scaled_h : ℕ)
  | mousePress (pos : Pt)
  | mouseMove (pos : Pt) (dragging : Bool)
  | mouseRelease (pos : Pt)

/-- One operation applied to the canvas state. -/
def step {P : Type} (s : CanvasState P) : CanvasOp → CanvasState P
  | CanvasOp.calcScaling => calculate_scaling_factors s
  | CanvasOp.updateDrawing cps cl lb rb sw => (update_drawing s cps cl lb rb sw).1
  | CanvasOp.paint w h => paintEvent_update_scaling s w h
  | CanvasOp.mousePress p => (mousePressEvent s p).1
  | CanvasOp.mouseMove p d => (mouseMoveEvent s p d).1
  | CanvasOp.mouseRelease p => (mouseReleaseEvent s p).1

/-- The `(left_boundary, right_boundary)` arguments of the last `updateDrawing`
in a list of operations (applied left to right), if any. -/
def lastBoundaryUpdate : List CanvasOp → Option (Option (List Pt) × Option (List Pt))
  | [] => none
  | op :: ops =>
    match lastBoundaryUpdate ops with
    | some r => some r
    | none =>
      match op with
      | CanvasOp.updateDrawing _ _ lb rb _ => some (lb, rb)
      | _ => none

/-- The state built by `__init__` (lines 11-44): scaling factors start at
`(1, 1)` with offsets `(0, 0)`, the images and extracted polygons are stored
(the polygon lists and free regions are the results of the cv2/shapely calls
of lines 27-34, taken as parameters), `calculate_scaling_factors` is run, and
the drawing fields start empty / `None` / `False`. -/
def initState (P : Type) (satW satH occRows occCols : ℕ)
    (obst obst0 : List (List Pt)) (free free0 : Option P) : CanvasState P :=
  calculate_scaling_factors
    { scale_x := 1, scale_y := 1, offset_x := 0, offset_y := 0,
      sat_image := (satW, satH), sat_pixmap := (satW, satH),
      binary_map := (occRows, occCols),
      obstacle_polygons := obst, free_region := free,
      original_obstacle_polygons := obst0, original_free_region := free0,
      control_points := [], centerline := none,
      left_boundary := none, right_boundary := none,
      boundaries_swapped := false }

/-- C2: `transform_point` is exactly the linear scale plus offset
`(map_x * scale_x + offset_x, map_y * scale_y + offset_y)`, and
`transform_polygon` applies this same affine map to every vertex. -/
theorem transform_point_affine_formula (P : Type) (s : CanvasState P)
    (map_x map_y : ℚ) (polygon : List Pt) :
    transform_point s map_x map_y
        = (map_x * s.scale_x + s.offset_x, map_y * s.scale_y + s.offset_y) ∧
    transform_polygon s polygon = polygon.map (fun p => transform_point s p.1 p.2) :=
  ⟨rfl, rfl⟩

/-- `pythonMax` returns `none` exactly on the empty list. -/
lemma pythonMax_eq_none_iff {α : Type} (key : α → ℚ) (l : List α) :
    pythonMax key l = none ↔ l = [] := by
  cases l <;> simp [pythonMax]

/-- C3: `extract_free_region` returns `None` exactly when there are no
contours, or the largest-area contour squeezes to a 1-D array or has fewer
than 3 points, or the polygon built from the transformed (closed) contour
points raises, is invalid, or is empty; otherwise it returns the polygon
built from the affinely transformed contour points, the contour having been
closed by appending its first point whenever first and last differ. -/
theorem extract_free_region_spec {P α : Type} (s : CanvasState P)
    (area : List Pt → ℚ) (mk : List Pt → Option α) (v e : α → Bool)
    (contours : List (List Pt)) :
    (extract_free_region s area mk v e contours = none ↔
      contours = [] ∨
      ∃ largest, pythonMax area contours = some largest ∧
        ((∃ p, squeeze largest = Squeezed.oneD p) ∨
         ∃ pts, squeeze largest = Squeezed.twoD pts ∧
           (pts.length < 3 ∨
            mk ((closeContour pts).map (fun p => transform_point s p.1 p.2)) = none ∨
            ∃ poly,
              mk ((closeContour pts).map (fun p => transform_point s p.1 p.2)) = some poly ∧
              (v poly = false ∨ e poly = true)))) ∧
    (∀ poly, extract_free_region s area mk v e contours = some poly ↔
      ∃ largest pts, pythonMax area contours = some largest ∧
        squeeze largest = Squeezed.twoD pts ∧ 3 ≤ pts.length ∧
        mk ((closeContour pts).map (fun p => transform_point s p.1 p.2)) = some poly ∧
        v poly = true ∧ e poly = false) ∧
    (∀ (h : Pt) (t : List Pt), closeContour (h :: t) =
      if (h :: t).getLast? = some h then h :: t else (h :: t) ++ [h]) := by
  refine ⟨?_, ?_, fun h t => rfl⟩
  · cases hmax : pythonMax area contours with
    | none =>
      have hc : contours = [] := (pythonMax_eq_none_iff area contours).mp hmax
      subst hc
      simp [extract_free_region, pythonMax]
    | some L =>
      have hne : contours ≠ [] := by
        rintro rfl; simp [pythonMax] at hmax
      cases hsq : squeeze L with
      | oneD p =>
        simp [extract_free_region, hmax, hsq, hne]
        exact ⟨p.1, p.2, rfl⟩
      | twoD pts =>
        by_cases hlen : pts.length < 3
        · simp [extract_free_region, hmax, hsq, hne, hlen]
        · cases hmk : mk ((closeContour pts).map fun p => transform_point s p.1 p.2) with
          | none => simp [extract_free_region, hmax, hsq, hne, hlen, hmk]
          | some poly =>
            cases hv : v poly <;> cases he : e poly <;>
              simp [extract_free_region, hmax, hsq, hne, hlen, hmk, hv, he]
  · intro poly0
    cases hmax : pythonMax area contours with
    | none =>
      have hc : contours = [] := (pythonMax_eq_none_iff area contours).mp hmax
      subst hc
      simp [extract_free_region, pythonMax]
    | some L =>
      cases hsq : squeeze L with
      | oneD p => simp [extract_free_region, hmax, hsq]
      | twoD pts =>
        by_cases hlen : pts.length < 3
        · simp [extract_free_region, hmax, hsq, hlen, Nat.not_le.mpr hlen]
        · cases hmk : mk ((closeContour pts).map fun p => transform_point s p.1 p.2) with
          | none => simp [extract_free_region, hmax, hsq, hlen, hmk]
          | some poly =>
            cases hv : v poly <;> cases he : e poly <;>
              simp [extract_free_region, hmax, hsq, hlen, hmk, hv, he,
                Nat.not_lt.mp hlen] <;>
              (rintro rfl; simp [hv, he])

/-- C4: in `paintEvent`, a failed float parse of `backoff_entry` falls back to
`min_boundary_backoff`, and the safe backoff region is drawn exactly when the
free region exists, its buffer by `-(backoff_val * px_per_m)` is non-empty
with a non-`None` exterior of at least 4 coordinates; what is drawn is
precisely that buffered region. -/
theorem paintEvent_backoff_spec {P α : Type} (s : CanvasState P)
    (buffer : α → ℚ → α) (is_empty : α → Bool) (exterior : α → Option (List Pt))
    (free_region : Option α) (backoff_text : Option ℚ)
    (min_boundary_backoff px_per_m : ℚ) (r : α × List Pt) :
    paintEvent_backoff s buffer is_empty exterior free_region none
        min_boundary_backoff px_per_m
      = paintEvent_backoff s buffer is_empty exterior free_region
        (some min_boundary_backoff) min_boundary_backoff px_per_m ∧
    (paintEvent_backoff s buffer is_empty exterior free_region backoff_text
        min_boundary_backoff px_per_m = some r ↔
      ∃ fr coords, free_region = some fr ∧
        is_empty (buffer fr
          (-(Option.getD backoff_text min_boundary_backoff * px_per_m))) = false ∧
        exterior (buffer fr
          (-(Option.getD backoff_text min_boundary_backoff * px_per_m))) = some coords ∧
        4 ≤ coords.length ∧
        r = (buffer fr (-(Option.getD backoff_text min_boundary_backoff * px_per_m)),
             coords.map (fun p => transform_point s p.1 p.2))) := by
  refine ⟨rfl, ?_⟩
  cases free_region with
  | none => simp [paintEvent_backoff]
  | some fr =>
    cases hie : is_empty (buffer fr
        (-(Option.getD backoff_text min_boundary_backoff * px_per_m))) with
    | true => simp [paintEvent_backoff, hie]
    | false =>
      cases hext : exterior (buffer fr
          (-(Option.getD backoff_text min_boundary_backoff * px_per_m))) with
      | none => simp [paintEvent_backoff, hie, hext]
      | some coords =>
        by_cases hlen : 4 ≤ coords.length <;>
          simp [paintEvent_backoff, hie, hext, hlen]
        exact eq_comm

/-- C5: `mousePressEvent` always hands the parent exactly the
inverse-transformed cursor position, `mouseMoveEvent` hands it the
inverse-transformed position if and only if `parent.dragging`, and neither
handler changes any canvas state. -/
theorem mouse_event_delegation (P : Type) (s : CanvasState P) (ex ey : ℚ)
    (dragging : Bool) :
    mousePressEvent s (ex, ey)
        = (s, [ParentCall.click (inverse_transform_point s ex ey)]) ∧
    mouseMoveEvent s (ex, ey) dragging
        = (s, if dragging then [ParentCall.drag (inverse_transform_point s ex ey)]
              else []) ∧
    (ParentCall.drag (inverse_transform_point s ex ey)
        ∈ (mouseMoveEvent s (ex, ey) dragging).2 ↔ dragging = true) := by
  refine ⟨rfl, ?_, ?_⟩ <;> cases dragging <;>
    simp [mouseMoveEvent, mousePressEvent]

/-- C6: `calculate_scaling_factors` sets `scale_x` and `scale_y` to the
satellite-image dimensions divided by the occupancy-map dimensions, each axis
independently, while `paintEvent` overwrites them with the scaled pixmap's
dimensions divided by the occupancy-map dimensions. -/
theorem scaling_factors_spec (P : Type) (s : CanvasState P)
    (scaled_w scaled_h : ℕ) :
    (calculate_scaling_factors s).scale_x
        = (s.sat_image.1 : ℚ) / (s.binary_map.2 : ℚ) ∧
    (calculate_scaling_factors s).scale_y
        = (s.sat_image.2 : ℚ) / (s.binary_map.1 : ℚ) ∧
    (paintEvent_update_scaling s scaled_w scaled_h).scale_x
        = (scaled_w : ℚ) / (s.binary_map.2 : ℚ) ∧
    (paintEvent_update_scaling s scaled_w scaled_h).scale_y
        = (scaled_h : ℚ) / (s.binary_map.1 : ℚ) :=
  ⟨rfl, rfl, rfl, rfl⟩

/-- C7: cones are sampled and drawn for a boundary exactly when the boundary
exists and has more than one point; the drawn cones are verbatim the output of
the external `sample_cones` at the parsed spacing, which falls back to
`default_cone_distance` when parsing fails. -/
theorem paintEvent_cones_spec (sample_cones : List Pt → ℚ → ℚ → List Pt)
    (boundary : Option (List Pt)) (cone_spacing_text : Option ℚ)
    (default_cone_distance px_per_m : ℚ) (cones : List Pt) :
    (paintEvent_cones sample_cones boundary
        (coneSpacing cone_spacing_text default_cone_distance) px_per_m
          = some cones ↔
      ∃ b, boundary = some b ∧ 1 < b.length ∧
        cones = sample_cones b
          (coneSpacing cone_spacing_text default_cone_distance) px_per_m) ∧
    coneSpacing none default_cone_distance = default_cone_distance ∧
    (∀ q : ℚ, coneSpacing (some q) default_cone_distance = q) := by
  refine ⟨?_, rfl, fun q => rfl⟩
  cases boundary with
  | none => simp [paintEvent_cones]
  | some b =>
    by_cases hb : 1 < b.length <;> simp [paintEvent_cones, hb]
    exact eq_comm

/-- Running any sequence of operations only changes `left_boundary` or
`right_boundary` at an `updateDrawing`, whose arguments they then hold. -/
lemma foldl_step_boundaries {P : Type} :
    ∀ (ops : List CanvasOp) (s : CanvasState P),
      ((ops.foldl step s).left_boundary, (ops.foldl step s).right_boundary)
        = (lastBoundaryUpdate ops).getD (s.left_boundary, s.right_boundary) := by
  intro ops
  induction ops with
  | nil => intro s; simp [lastBoundaryUpdate]
  | cons op ops ih =>
    intro s
    rw [List.foldl_cons, ih]
    cases hlast : lastBoundaryUpdate ops with
    | some r => simp [lastBoundaryUpdate, hlast]
    | none =>
      cases op with
      | mouseMove p d =>
        cases d <;> simp [lastBoundaryUpdate, hlast, step, mouseMoveEvent]
      | _ =>
        simp [lastBoundaryUpdate, hlast, step, calculate_scaling_factors,
          update_drawing, paintEvent_update_scaling, mousePressEvent,
          mouseReleaseEvent]

/-- C8: in every state reachable from construction by any sequence of canvas
operations, `left_boundary` and `right_boundary` are either `None` (their
initial values) or exactly the values last passed by the parent through
`update_drawing`; no canvas operation computes boundary geometry itself. -/
theorem boundaries_only_from_update_drawing (P : Type)
    (satW satH occRows occCols : ℕ) (obst obst0 : List (List Pt))
    (free free0 : Option P) (ops : List CanvasOp) :
    ((ops.foldl step
        (initState P satW satH occRows occCols obst obst0 free free0)).left_boundary,
     (ops.foldl step
        (initState P satW satH occRows occCols obst obst0 free free0)).right_boundary)
      = (lastBoundaryUpdate ops).getD (none, none) := by
  rw [foldl_step_boundaries]
  rfl

/-- C9: `update_drawing` assigns exactly the five drawing fields and requests a
repaint; every other field of the canvas is unchanged. -/
theorem update_drawing_frame (P : Type) (s : CanvasState P) (cps : List Pt)
    (cl lb rb : Option (List Pt)) (sw : Bool) :
    (update_drawing s cps cl lb rb sw).2 = true ∧
    (update_drawing s cps cl lb rb sw).1.control_points = cps ∧
    (update_drawing s cps cl lb rb sw).1.centerline = cl ∧
    (update_drawing s cps cl lb rb sw).1.left_boundary = lb ∧
    (update_drawing s cps cl lb rb sw).1.right_boundary = rb ∧
    (update_drawing s cps cl lb rb sw).1.boundaries_swapped = sw ∧
    (update_drawing s cps cl lb rb sw).1.scale_x = s.scale_x ∧
    (update_drawing s cps cl lb rb sw).1.scale_y = s.scale_y ∧
    (update_drawing s cps cl lb rb sw).1.offset_x = s.offset_x ∧
    (update_drawing s cps cl lb rb sw).1.offset_y = s.offset_y ∧
    (update_drawing s cps cl lb rb sw).1.sat_image = s.sat_image ∧
    (update_drawing s cps cl lb rb sw).1.sat_pixmap = s.sat_pixmap ∧
    (update_drawing s cps cl lb rb sw).1.binary_map = s.binary_map ∧
    (update_drawing s cps cl lb rb sw).1.obstacle_polygons = s.obstacle_polygons ∧
    (update_drawing s cps cl lb rb sw).1.original_obstacle_polygons
        = s.original_obstacle_polygons ∧
    (update_drawing s cps cl lb rb sw).1.free_region = s.free_region ∧
    (update_drawing s cps cl lb rb sw).1.original_free_region
        = s.original_free_region :=
  ⟨rfl, rfl, rfl, rfl, rfl, rfl, rfl, rfl, rfl, rfl, rfl, rfl, rfl, rfl, rfl,
   rfl, rfl⟩

/-- C10: `mouseReleaseEvent` forwards the raw display-coordinate event position
to `handle_canvas_release`, with no `inverse_transform_point`, unlike
`mousePressEvent`, whose argument is inverse-transformed; at the concrete
`sampleState` the two frames genuinely differ. -/
theorem mouse_release_raw_position (P : Type) (s : CanvasState P) (ex ey : ℚ) :
    mouseReleaseEvent s (ex, ey) = (s, [ParentCall.release (ex, ey)]) ∧
    (mousePressEvent s (ex, ey)).2
        = [ParentCall.click (inverse_transform_point s ex ey)] ∧
    inverse_transform_point sampleState 4 9 ≠ ((4 : ℚ), (9 : ℚ)) := by
  refine ⟨rfl, rfl, ?_⟩
  norm_num [inverse_transform_point, sampleState, Prod.ext_iff]
